import Mathlib

/-
Verification of the context-aggregation and adjudication pipeline of the
research-assistant backend (src/backend/src/workflows/flow.py and
src/backend/src/generation/generation.py).

The Python functions are shallowly embedded:
  * JSON values (the result of json.loads) are the inductive type Json;
    Python dicts are association lists with unique keys, in insertion order.
  * json.loads itself is standard-library code, so the parse outcome is an
    input of the embedding: `none` stands for a raised json.JSONDecodeError,
    `some v` for the parsed value v.
  * Python floats are modelled as rationals.  The only float constants the
    embedded code compares against are 0.0, 0.5, 0.7 * n and 0.8 * n; the
    claims proved below do not depend on IEEE rounding of those products
    (every branch of the truncation code satisfies the proved length bound,
    and 0.0 and 0.5 are exact in binary).
  * Functions that can raise return Except PyErr.
-/

/-- A JSON value as json.loads produces it: None, bool, number, string,
list or dict (an association list in insertion order, keys unique). -/
inductive Json where
  | null
  | bool (b : Bool)
  | num (q : ℚ)
  | str (s : String)
  | arr (xs : List Json)
  | obj (kvs : List (String × Json))

/-- Exceptions the embedded Python can raise. -/
inductive PyErr where
  | typeError
  | attributeError
  | runtimeError

/-- Python dict.get with a default: the value of the first matching key. -/
def assocGetD {α : Type} : List (String × α) → String → α → α
  | [], _, d => d
  | p :: rest, k, d => if p.1 == k then p.2 else assocGetD rest k d

/-- Python `k in d` for a dict: key membership. -/
def assocHas {α : Type} : List (String × α) → String → Bool
  | [], _ => false
  | p :: rest, k => p.1 == k || assocHas rest k

/-- Python dict lookup as an Option. -/
def assocFind {α : Type} : List (String × α) → String → Option α
  | [], _ => none
  | p :: rest, k => if p.1 == k then some p.2 else assocFind rest k

/-- Python `d[k] = v`: replace the value in place when the key exists,
append the pair otherwise (dict insertion order). -/
def assocSet {α : Type} : List (String × α) → String → α → List (String × α)
  | [], k, v => [(k, v)]
  | p :: rest, k, v => if p.1 == k then (k, v) :: rest else p :: assocSet rest k v

/-- Whether the second list starts with the first (used for substring search). -/
def leadsWith : List Char → List Char → Bool
  | [], _ => true
  | _ :: _, [] => false
  | a :: as, b :: bs => a == b && leadsWith as bs

/-- Python `needle in hay` for strings: substring containment. -/
def containsSub (needle : List Char) : List Char → Bool
  | [] => leadsWith needle []
  | c :: t => leadsWith needle (c :: t) || containsSub needle t

/-- Substring test on String, Python `needle in hay`. -/
def strContains (hay needle : String) : Bool :=
  containsSub needle.data hay.data

/-- Python str.lower, per character (ASCII-faithful). -/
def strLower (s : String) : String :=
  String.mk (s.data.map Char.toLower)

/-- Python repr of a string: quotes chosen as repr does, backslashes and
quotes escaped (escapes of non-printable characters are not modelled; they
never produce the letter sequences the embedded code searches for). -/
def pyEscape (quote : Char) (s : String) : String :=
  String.mk (s.data.foldr
    (fun c acc =>
      if c == '\\' then '\\' :: '\\' :: acc
      else if c == quote then '\\' :: c :: acc
      else c :: acc) [])

/-- Python repr of a string literal. -/
def pyReprStr (s : String) : String :=
  if strContains s "'" && !strContains s "\"" then
    "\"" ++ pyEscape '"' s ++ "\""
  else
    "'" ++ pyEscape '\'' s ++ "'"

mutual

/-- Python str()/repr() of a parsed JSON value (str() of a container calls
repr on the elements).  Number rendering is approximate but letter-free, so
it cannot affect the substring searches the pipeline performs on it. -/
def pyRepr : Json → String
  | Json.null => "None"
  | Json.bool true => "True"
  | Json.bool false => "False"
  | Json.num q => if q.den == 1 then toString q.num else toString q
  | Json.str s => pyReprStr s
  | Json.arr l => "[" ++ pyReprElems l ++ "]"
  | Json.obj kvs => "\x7b" ++ pyReprPairs kvs ++ "\x7d"

/-- Comma-separated repr of list elements. -/
def pyReprElems : List Json → String
  | [] => ""
  | [x] => pyRepr x
  | x :: y :: rest => pyRepr x ++ ", " ++ pyReprElems (y :: rest)

/-- Comma-separated repr of dict entries. -/
def pyReprPairs : List (String × Json) → String
  | [] => ""
  | [(k, v)] => pyReprStr k ++ ": " ++ pyRepr v
  | (k, v) :: q :: rest => pyReprStr k ++ ": " ++ pyRepr v ++ ", " ++ pyReprPairs (q :: rest)

end

/-- Python truthiness of a JSON value (`not x`). -/
def pyFalsy : Json → Bool
  | Json.null => true
  | Json.bool b => !b
  | Json.num q => q == 0
  | Json.str s => s.isEmpty
  | Json.arr l => l.isEmpty
  | Json.obj l => l.isEmpty

/-- Python `j == s` for a string s: true only when j is that string. -/
def jIsStrEq : Json → String → Bool
  | Json.str t, s => t == s
  | _, _ => false

/-- The numeric value of a JSON number, 0 for other values.  The pipeline
stores confidence fields opaquely and compares them as floats; the claims
below only exercise numeric confidences, so non-numeric junk maps to 0. -/
def jNum : Json → ℚ
  | Json.num q => q
  | _ => 0

/-- Whether the error-token test of _parse_agent_result fires on a parsed
dict: Python `"error" in parsed or "Error" in str(parsed)` (flow.py:374). -/
def errorTokenPresent (kvs : List (String × Json)) : Bool :=
  assocHas kvs "error" || strContains (pyRepr (Json.obj kvs)) "Error"

/-- Whether both content fields are falsy: Python
`not parsed.get("answer") and not parsed.get("citations")` (flow.py:376). -/
def contentMissing (kvs : List (String × Json)) : Bool :=
  pyFalsy (assocGetD kvs "answer" Json.null) && pyFalsy (assocGetD kvs "citations" Json.null)

/-- The status _parse_agent_result infers for a dict that lacks one
(flow.py:374-379). -/
def inferStatus (kvs : List (String × Json)) : String :=
  if errorTokenPresent kvs then "ERROR"
  else if contentMissing kvs then "INSUFFICIENT_CONTEXT"
  else "OK"

/-- ResearchAssistantFlow._parse_agent_result (flow.py:367-403).  The first
argument is the raw string, the second the outcome of json.loads on it
(none = json.JSONDecodeError, which is the only exception the function
catches).  On a parsed dict: a present status passes through untouched,
otherwise the inferred status is assigned (dict assignment appends the new
key).  On parsed non-dict values the Python raises: `"status" not in parsed`
is a TypeError for numbers, booleans and None; for a string or list that
does contain "status" the value is returned as is (not a dict), and
otherwise either the item assignment `parsed["status"] = "ERROR"` raises
TypeError or `parsed.get("answer")` raises AttributeError.  On a parse
failure the heuristic classification of flow.py:384-403 runs. -/
def parse_agent_result (rawResult : String) (parsed : Option Json) : Except PyErr Json :=
  match parsed with
  | some (Json.obj kvs) =>
      if assocHas kvs "status" then Except.ok (Json.obj kvs)
      else Except.ok (Json.obj (assocSet kvs "status" (Json.str (inferStatus kvs))))
  | some (Json.str s) =>
      if strContains s "status" then Except.ok (Json.str s)
      else if strContains s "error" || strContains s "Error" then Except.error PyErr.typeError
      else Except.error PyErr.attributeError
  | some (Json.arr l) =>
      if l.any (fun x => jIsStrEq x "status") then Except.ok (Json.arr l)
      else if l.any (fun x => jIsStrEq x "error") || strContains (pyRepr (Json.arr l)) "Error" then
        Except.error PyErr.typeError
      else Except.error PyErr.attributeError
  | some _ => Except.error PyErr.typeError
  | none =>
      let rawLower := strLower rawResult
      if strContains rawLower "error" || strContains rawLower "failed" then
        Except.ok (Json.obj
          [("status", Json.str "ERROR"), ("source_used", Json.str "UNKNOWN"),
           ("answer", Json.str rawResult), ("error", Json.str rawResult),
           ("citations", Json.arr []), ("confidence", Json.num 0)])
      else
        Except.ok (Json.obj
          [("status", Json.str "OK"), ("source_used", Json.str "UNKNOWN"),
           ("answer", Json.str rawResult), ("citations", Json.arr []),
           ("confidence", Json.num (1/2))])

/-- The dict of a normally returned result, [] otherwise. -/
def resultObj : Except PyErr Json → List (String × Json)
  | Except.ok (Json.obj kvs) => kvs
  | _ => []

/-- Field lookup on a normally returned dict result. -/
def resultLookup : Except PyErr Json → String → Option Json
  | Except.ok (Json.obj kvs), k => assocFind kvs k
  | _, _ => none

/-- Python str.rfind on a list of characters: highest index of the
character, -1 when absent. -/
def listRfind (c : Char) (l : List Char) : Int :=
  match l.reverse.findIdx? (fun x => x == c) with
  | some i => ((l.length - 1 - i : ℕ) : Int)
  | none => -1

/-- The marker appended after a sentence-boundary cut (flow.py:416). -/
def truncSentenceMarker : List Char := " [Response truncated for memory storage]".data

/-- The marker appended after a word-boundary or hard cut (flow.py:420,422). -/
def truncEllipsisMarker : List Char := "... [Response truncated for memory storage]".data

/-- ResearchAssistantFlow._summarize_for_memory (flow.py:405-422), on the
code points of the Python string.  The float products max_length * 0.7 and
max_length * 0.8 are modelled as exact rationals; IEEE rounding can only
move an input between branches, and each branch is covered by the length
bound proved below. -/
def summarize_for_memory (response : List Char) (maxLength : ℕ) : List Char :=
  if response.length ≤ maxLength then response
  else
    let truncated := response.take maxLength
    let lastPeriod := listRfind '.' truncated
    let lastExclamation := listRfind '!' truncated
    let lastQuestion := listRfind '?' truncated
    let lastSentenceEnd := max lastPeriod (max lastExclamation lastQuestion)
    if ((maxLength : ℚ) * (7/10)) < (lastSentenceEnd : ℚ) then
      truncated.take (lastSentenceEnd.toNat + 1) ++ truncSentenceMarker
    else
      let lastSpace := listRfind ' ' truncated
      if ((maxLength : ℚ) * (8/10)) < (lastSpace : ℚ) then
        truncated.take lastSpace.toNat ++ truncEllipsisMarker
      else
        truncated ++ truncEllipsisMarker

namespace StructuredResponseGen

/-- The result normalization of StructuredResponseGen.generate
(generation.py:113-249) after the transport call: the model output is the
outcome of json.loads on the response text (none = JSONDecodeError, which
generate re-raises as a RuntimeError).  A parsed dict gets
`data["source_used"] = source_used` (generation.py:240) and is returned;
on a parsed non-dict, `data.get("status")` (generation.py:187) raises
AttributeError before line 240 is reached. -/
def generate (modelOutput : Option Json) (sourceUsed : String) : Except PyErr Json :=
  match modelOutput with
  | none => Except.error PyErr.runtimeError
  | some (Json.obj kvs) => Except.ok (Json.obj (assocSet kvs "source_used" (Json.str sourceUsed)))
  | some _ => Except.error PyErr.attributeError

end StructuredResponseGen

/-- The fixed scan order of synthesize_final_response (flow.py:287-288):
display name paired with the context_sources key. -/
def sourceOrder : List (String × String) :=
  [("RAG", "rag_result"), ("Memory", "memory_result"),
   ("Web", "web_result"), ("ArXiv", "tool_result")]

/-- One iteration of the availability loop (flow.py:287-298): fetch the
entry with a \x7b\x7d default, skip non-dicts, and keep name and confidence
when status == "OK". -/
def okEntryOf (name : String) : Json → Option (String × ℚ)
  | Json.obj kvs =>
      if jIsStrEq (assocGetD kvs "status" (Json.str "")) "OK" then
        some (name, jNum (assocGetD kvs "confidence" (Json.num 0)))
      else none
  | Json.null => none
  | Json.bool _ => none
  | Json.num _ => none
  | Json.str _ => none
  | Json.arr _ => none

/-- The loop body applied to the fetched entry. -/
def okEntry (contextSources : List (String × Json)) (nk : String × String) : Option (String × ℚ) :=
  okEntryOf nk.1 (assocGetD contextSources nk.2 (Json.obj []))

/-- available_sources with source_confidences (flow.py:283-298): the
status=OK entries in scan order, each with its confidence. -/
def availableSources (contextSources : List (String × Json)) : List (String × ℚ) :=
  sourceOrder.filterMap (okEntry contextSources)

/-- One comparison step of Python max(iterable, key=...): the running value
is replaced only when the new key is strictly larger, so the first maximum
wins. -/
def pickStep {α : Type} (key : α → ℚ) (b a : α) : α :=
  if key b < key a then a else b

/-- Python max(x :: xs, key=...). -/
def pickMax {α : Type} (key : α → ℚ) (x : α) (xs : List α) : α :=
  xs.foldl (pickStep key) x

/-- Python max(l, key=...), none on the empty list (the callers guard). -/
def pyMaxBy {α : Type} (key : α → ℚ) : List α → Option α
  | [] => none
  | x :: xs => some (pickMax key x xs)

/-- Python max of a list of numbers, 0 on the empty list (callers guard). -/
def pyMaxQ : List ℚ → ℚ
  | [] => 0
  | x :: xs => xs.foldl max x

/-- The selection key of flow.py:304:
`relevance_scores.get(s, source_confidences.get(s, 0.0))`. -/
def arbKey (scores avail : List (String × ℚ)) (s : String) : ℚ :=
  assocGetD scores s (assocGetD avail s 0)

/-- source_used resolution (flow.py:300-312). -/
def resolveSourceUsed (relevant : List String) (scores avail : List (String × ℚ)) : String :=
  if relevant ≠ [] ∧ scores ≠ [] then
    match pyMaxBy (arbKey scores avail) relevant with
    | some s => s
    | none => "NONE"
  else if avail.map Prod.fst ≠ [] then
    match pyMaxBy (fun s => assocGetD avail s 0) (avail.map Prod.fst) with
    | some s => s
    | none => "NONE"
  else "NONE"

/-- confidence resolution (flow.py:314-334). -/
def resolveConfidence (sourceUsed : String) (scores avail : List (String × ℚ)) : ℚ :=
  if sourceUsed ≠ "NONE" then
    if assocHas scores sourceUsed then assocGetD scores sourceUsed 0
    else if assocHas avail sourceUsed then assocGetD avail sourceUsed 0
    else if scores ≠ [] then pyMaxQ (scores.map Prod.snd)
    else if avail ≠ [] then pyMaxQ (avail.map Prod.snd)
    else 0
  else 0

/-- status derivation (flow.py:336-342); final_response truthiness is
non-emptiness of the synthesized string. -/
def deriveStatus (confidence : ℚ) (finalResponse : String) : String :=
  if 1/2 < confidence ∧ finalResponse ≠ "" then "OK"
  else if 0 < confidence then "OK"
  else "INSUFFICIENT_CONTEXT"

/-- The deterministic fields of the FinalResponse. -/
structure ArbiterResult where
  source_used : String
  confidence : ℚ
  status : String

/-- The arbiter tail of ResearchAssistantFlow.synthesize_final_response
(flow.py:283-342): from the evaluator output (relevant_sources and
relevance_scores, typed as the pydantic model validates them), the raw
context_sources map, and the synthesized answer text, the deterministic
source_used, confidence and status of the FinalResponse. -/
def synthesize_final_response (relevant : List String) (scores : List (String × ℚ))
    (contextSources : List (String × Json)) (finalResponse : String) : ArbiterResult :=
  let avail := availableSources contextSources
  let su := resolveSourceUsed relevant scores avail
  let conf := resolveConfidence su scores avail
  { source_used := su, confidence := conf, status := deriveStatus conf finalResponse }

/-! Helper lemmas about the association-list and max embeddings. -/

/-- Assigning an absent key appends the pair, preserving every existing
entry in place. -/
theorem assocSet_of_absent {α : Type} (kvs : List (String × α)) (k : String) (v : α)
    (h : assocHas kvs k = false) : assocSet kvs k v = kvs ++ [(k, v)] := by
  induction kvs with
  | nil => rfl
  | cons p rest ih =>
      rw [assocHas, Bool.or_eq_false_iff] at h
      rw [assocSet, if_neg (by simp [h.1]), ih h.2, List.cons_append]

/-- Looking up the key just assigned returns the assigned value. -/
theorem assocFind_assocSet {α : Type} (kvs : List (String × α)) (k : String) (v : α) :
    assocFind (assocSet kvs k v) k = some v := by
  induction kvs with
  | nil => simp [assocSet, assocFind]
  | cons p rest ih =>
      by_cases hk : p.1 == k
      · simp [assocSet, hk, assocFind]
      · simp only [assocSet, hk, if_false, Bool.false_eq_true, assocFind, ih]

/-- jIsStrEq is equality with the given string literal. -/
theorem jIsStrEq_iff (j : Json) (s : String) : jIsStrEq j s = true ↔ j = Json.str s := by
  cases j <;> simp [jIsStrEq]

/-- Python max keeps the first maximum: the initial-and-rest list splits
around the result, everything before it strictly below, everything after it
at most equal. -/
theorem pickMax_split {α : Type} (key : α → ℚ) :
    ∀ (xs : List α) (x : α), ∃ l₁ l₂,
      x :: xs = l₁ ++ pickMax key x xs :: l₂
      ∧ (∀ t ∈ l₁, key t < key (pickMax key x xs))
      ∧ (∀ t ∈ l₂, key t ≤ key (pickMax key x xs)) := by
  intro xs
  induction xs with
  | nil =>
      intro x
      exact ⟨[], [], rfl, by simp, by simp⟩
  | cons a xs ih =>
      intro x
      have hfold : pickMax key x (a :: xs) = pickMax key (pickStep key x a) xs := rfl
      by_cases h : key x < key a
      · have hstep : pickStep key x a = a := by simp [pickStep, h]
        obtain ⟨l₁, l₂, heq, h₁, h₂⟩ := ih a
        have ham : key a ≤ key (pickMax key a xs) := by
          have hmem : a ∈ l₁ ++ pickMax key a xs :: l₂ := by
            rw [← heq]; exact List.mem_cons_self a xs
          rcases List.mem_append.mp hmem with hl | hr
          · exact le_of_lt (h₁ a hl)
          · rcases List.mem_cons.mp hr with he | hl₂
            · exact le_of_eq (congrArg key he)
            · exact h₂ a hl₂
        rw [hfold, hstep]
        refine ⟨x :: l₁, l₂, ?_, ?_, h₂⟩
        · rw [show x :: a :: xs = x :: (l₁ ++ pickMax key a xs :: l₂) by rw [← heq],
            List.cons_append]
        · intro t ht
          rcases List.mem_cons.mp ht with he | hl
          · exact he ▸ lt_of_lt_of_le h ham
          · exact h₁ t hl
      · have hstep : pickStep key x a = x := by simp [pickStep, h]
        have hax : key a ≤ key x := le_of_not_lt h
        obtain ⟨l₁, l₂, heq, h₁, h₂⟩ := ih x
        rw [hfold, hstep]
        cases l₁ with
        | nil =>
            rw [List.nil_append] at heq
            obtain ⟨hx, hl⟩ := List.cons.inj heq
            refine ⟨[], a :: xs, by rw [List.nil_append, ← hx], by simp, ?_⟩
            intro t ht
            rcases List.mem_cons.mp ht with he | hl₂
            · rw [he, ← hx]; exact hax
            · rw [hl] at hl₂; exact h₂ t hl₂
        | cons b l₁img =>
            rw [List.cons_append] at heq
            obtain ⟨hx, hl⟩ := List.cons.inj heq
            have hbx : key x < key (pickMax key x xs) := by
              have hb := h₁ b (List.mem_cons_self b l₁img)
              rw [← hx] at hb
              exact hb
            refine ⟨x :: a :: l₁img, l₂, ?_, ?_, h₂⟩
            · rw [List.cons_append, List.cons_append, ← hl]
            · intro t ht
              rcases List.mem_cons.mp ht with he | ht₂
              · rw [he]; exact hbx
              · rcases List.mem_cons.mp ht₂ with he₂ | ht₃
                · rw [he₂]; exact lt_of_le_of_lt hax hbx
                · exact h₁ t (List.mem_cons_of_mem b ht₃)

/-- Python max over a non-empty list splits the list around the first
maximum. -/
theorem pyMaxBy_split {α : Type} (key : α → ℚ) (l : List α) (m : α)
    (h : pyMaxBy key l = some m) :
    ∃ l₁ l₂, l = l₁ ++ m :: l₂
      ∧ (∀ t ∈ l₁, key t < key m) ∧ (∀ t ∈ l₂, key t ≤ key m) := by
  cases l with
  | nil => exact absurd h (by simp [pyMaxBy])
  | cons x xs =>
      have hm : pickMax key x xs = m := by
        have := h
        rw [pyMaxBy] at this
        exact Option.some.inj this
      rw [← hm]
      exact pickMax_split key xs x

/-- Python max returns a member of the list. -/
theorem pyMaxBy_mem {α : Type} (key : α → ℚ) (l : List α) (m : α)
    (h : pyMaxBy key l = some m) : m ∈ l := by
  obtain ⟨l₁, l₂, heq, -, -⟩ := pyMaxBy_split key l m h
  rw [heq]
  exact List.mem_append.mpr (Or.inr (List.mem_cons_self m l₂))

/-- Every available source carries one of the four display names of the
fixed scan order. -/
theorem okEntryOf_eq_some (name : String) (v : Json) (p : String × ℚ)
    (h : okEntryOf name v = some p) :
    ∃ kvs, v = Json.obj kvs
      ∧ assocGetD kvs "status" (Json.str "") = Json.str "OK"
      ∧ p = (name, jNum (assocGetD kvs "confidence" (Json.num 0))) := by
  cases v with
  | obj kvs =>
      rw [okEntryOf] at h
      by_cases hst : jIsStrEq (assocGetD kvs "status" (Json.str "")) "OK"
      · rw [if_pos hst] at h
        exact ⟨kvs, rfl, (jIsStrEq_iff _ _).mp hst, (Option.some.inj h).symm⟩
      · exact absurd h (by simp [hst])
  | null => simp [okEntryOf] at h
  | bool b => simp [okEntryOf] at h
  | num q => simp [okEntryOf] at h
  | str s => simp [okEntryOf] at h
  | arr l => simp [okEntryOf] at h

/-- Every available source carries one of the four display names of the
fixed scan order. -/
theorem availableSources_name_mem (cs : List (String × Json)) (p : String × ℚ)
    (h : p ∈ availableSources cs) :
    p.1 ∈ (["RAG", "Memory", "Web", "ArXiv"] : List String) := by
  obtain ⟨nk, hnk, hok⟩ := List.mem_filterMap.mp h
  obtain ⟨kvs, -, -, hp⟩ := okEntryOf_eq_some nk.1 _ p hok
  rw [hp]
  rw [sourceOrder] at hnk
  simp only [List.mem_cons, List.not_mem_nil, or_false] at hnk
  rcases hnk with h4 | h4 | h4 | h4 <;> rw [h4] <;> simp

/-- Membership in availableSources, characterized by the scan performed on
the raw context_sources map. -/
theorem availableSources_mem_iff (cs : List (String × Json)) (name : String) (conf : ℚ) :
    (name, conf) ∈ availableSources cs ↔
      ∃ key kvs, (name, key) ∈ sourceOrder
        ∧ assocGetD cs key (Json.obj []) = Json.obj kvs
        ∧ assocGetD kvs "status" (Json.str "") = Json.str "OK"
        ∧ conf = jNum (assocGetD kvs "confidence" (Json.num 0)) := by
  constructor
  · intro h
    obtain ⟨nk, hnk, hok⟩ := List.mem_filterMap.mp h
    obtain ⟨kvs, hobj, hst, hp⟩ := okEntryOf_eq_some nk.1 _ _ hok
    obtain ⟨hn, hc⟩ := Prod.mk.inj hp
    refine ⟨nk.2, kvs, ?_, hobj, hst, hc⟩
    have heta : nk = (name, nk.2) := by rw [hn]
    rw [← heta]
    exact hnk
  · rintro ⟨key, kvs, hnk, hobj, hst, hconf⟩
    refine List.mem_filterMap.mpr ⟨(name, key), hnk, ?_⟩
    rw [okEntry]
    rw [show ((name, key) : String × String).2 = key from rfl, hobj]
    rw [show ((name, key) : String × String).1 = name from rfl]
    rw [okEntryOf, hst]
    rw [if_pos (by simp [jIsStrEq])]
    rw [hconf]

/-- The status derivation of flow.py:336-342, characterized for a
non-negative confidence: positive confidence yields OK (with or without an
answer), and INSUFFICIENT_CONTEXT holds exactly at confidence 0. -/
theorem deriveStatus_spec (c : ℚ) (fr : String) (h : 0 ≤ c) :
    ((0 < c ∧ fr ≠ "") → deriveStatus c fr = "OK")
    ∧ (deriveStatus c fr = "INSUFFICIENT_CONTEXT" ↔ c = 0) := by
  constructor
  · rintro ⟨hcpos, -⟩
    rw [deriveStatus]
    by_cases h1 : 1/2 < c ∧ fr ≠ ""
    · rw [if_pos h1]
    · rw [if_neg h1, if_pos hcpos]
  · constructor
    · intro hic
      by_contra hne
      have hcpos : 0 < c := lt_of_le_of_ne h (Ne.symm hne)
      rw [deriveStatus] at hic
      by_cases h1 : 1/2 < c ∧ fr ≠ ""
      · rw [if_pos h1] at hic
        exact absurd hic (by decide)
      · rw [if_neg h1, if_pos hcpos] at hic
        exact absurd hic (by decide)
    · intro hc0
      subst hc0
      rw [deriveStatus]
      rw [if_neg (fun hh => absurd hh.1 (by norm_num)), if_neg (lt_irrefl 0)]

/-- C1: for every arbiter run of synthesize_final_response with a
non-negative resolved confidence, the final status is OK if the confidence
is positive and an answer was produced, and the status is
INSUFFICIENT_CONTEXT exactly when the confidence is 0.0; in particular a
run resolving confidence to 0.0 yields INSUFFICIENT_CONTEXT and a run
resolving it to 0.0001 yields OK. -/
theorem arbiter_status_from_confidence (relevant : List String)
    (scores : List (String × ℚ)) (cs : List (String × Json)) (fr : String)
    (h : 0 ≤ (synthesize_final_response relevant scores cs fr).confidence) :
    ((0 < (synthesize_final_response relevant scores cs fr).confidence ∧ fr ≠ "") →
        (synthesize_final_response relevant scores cs fr).status = "OK")
    ∧ ((synthesize_final_response relevant scores cs fr).status = "INSUFFICIENT_CONTEXT"
        ↔ (synthesize_final_response relevant scores cs fr).confidence = 0)
    ∧ (synthesize_final_response ["RAG"] [("RAG", 0)] [] "ans").status = "INSUFFICIENT_CONTEXT"
    ∧ (synthesize_final_response ["RAG"] [("RAG", 1/10000)] [] "ans").status = "OK" := by
  have hspec := deriveStatus_spec ((synthesize_final_response relevant scores cs fr).confidence) fr h
  have hst : (synthesize_final_response relevant scores cs fr).status
      = deriveStatus ((synthesize_final_response relevant scores cs fr).confidence) fr := rfl
  refine ⟨?_, ?_, ?_, ?_⟩
  · intro hp
    rw [hst]
    exact hspec.1 hp
  · rw [hst]
    exact hspec.2
  · norm_num +decide [synthesize_final_response, resolveSourceUsed, resolveConfidence,
      deriveStatus, availableSources, sourceOrder, okEntry, okEntryOf, assocGetD, assocHas,
      jIsStrEq, jNum, pyMaxBy, pickMax, pickStep, arbKey, List.filterMap]
  · norm_num +decide [synthesize_final_response, resolveSourceUsed, resolveConfidence,
      deriveStatus, availableSources, sourceOrder, okEntry, okEntryOf, assocGetD, assocHas,
      jIsStrEq, jNum, pyMaxBy, pickMax, pickStep, arbKey, List.filterMap]

/-- C1 witness: the theorem applied to the run with relevant_sources
["RAG"] and relevance_scores assigning RAG the score 1, projected to the
concrete boundary instance confidence 0.0. -/
theorem arbiter_status_from_confidence_witness :
    (synthesize_final_response ["RAG"] [("RAG", 0)] [] "ans").status = "INSUFFICIENT_CONTEXT" :=
  (arbiter_status_from_confidence ["RAG"] [("RAG", 1)] [] "a"
    (by norm_num +decide [synthesize_final_response, resolveSourceUsed, resolveConfidence,
      availableSources, sourceOrder, okEntry, okEntryOf, assocGetD, assocHas, jIsStrEq, jNum,
      pyMaxBy, pickMax, pickStep, arbKey, List.filterMap])).2.2.1

/-- C2 counterexample: with relevant_sources = ["RAG", "Memory"],
relevance_scores scoring only RAG (0.1), and a memory context entry with
status OK and confidence 0.9, the arbiter picks "Memory" although "Memory"
has no score in relevance_scores at all and the maximum relevance score is
RAG's: the selection key falls back to the source confidence, so the claim
as stated fails. -/
theorem arbiter_primary_selection_cex :
    (synthesize_final_response ["RAG", "Memory"] [("RAG", 1/10)]
        [("memory_result", Json.obj [("status", Json.str "OK"), ("confidence", Json.num (9/10))])]
        "ans").source_used = "Memory"
    ∧ assocHas [(("RAG" : String), (1/10 : ℚ))] "Memory" = false
    ∧ ("Memory" : String) ≠ "RAG" := by
  refine ⟨?_, rfl, by decide⟩
  norm_num +decide [synthesize_final_response, resolveSourceUsed, availableSources, sourceOrder,
    okEntry, okEntryOf, assocGetD, jIsStrEq, jNum, pyMaxBy, pickMax, pickStep, arbKey,
    List.filterMap]

/-- C2 (amended): when relevant_sources and relevance_scores are both
non-empty, the arbiter picks the member of relevant_sources with the
maximum value of the key relevance_scores.get(s, OK-confidence of s,
default 0) — the relevance score when the source has one, its collected
OK-source confidence otherwise — and on ties the member encountered first
in relevant_sources wins: the list splits around the choice with strictly
smaller keys before it and no larger key after it.  In particular, for
relevant_sources = ["RAG", "Web"] with both scores 0.9, "RAG" is chosen. -/
theorem arbiter_primary_selection_amended (relevant : List String)
    (scores : List (String × ℚ)) (cs : List (String × Json)) (fr : String)
    (h₁ : relevant ≠ []) (h₂ : scores ≠ []) :
    (∃ l₁ l₂, relevant = l₁ ++ (synthesize_final_response relevant scores cs fr).source_used :: l₂
      ∧ (∀ t ∈ l₁, arbKey scores (availableSources cs) t
          < arbKey scores (availableSources cs)
              ((synthesize_final_response relevant scores cs fr).source_used))
      ∧ (∀ t ∈ l₂, arbKey scores (availableSources cs) t
          ≤ arbKey scores (availableSources cs)
              ((synthesize_final_response relevant scores cs fr).source_used)))
    ∧ (synthesize_final_response ["RAG", "Web"] [("RAG", 9/10), ("Web", 9/10)] [] "ans").source_used
        = "RAG" := by
  constructor
  · cases relevant with
    | nil => exact absurd rfl h₁
    | cons x xs =>
        have hsu : (synthesize_final_response (x :: xs) scores cs fr).source_used
            = pickMax (arbKey scores (availableSources cs)) x xs := by
          show resolveSourceUsed (x :: xs) scores (availableSources cs)
              = pickMax (arbKey scores (availableSources cs)) x xs
          unfold resolveSourceUsed
          rw [if_pos (And.intro (List.cons_ne_nil x xs) h₂)]
          rfl
        rw [hsu]
        exact pickMax_split _ xs x
  · norm_num +decide [synthesize_final_response, resolveSourceUsed, availableSources, sourceOrder,
      okEntry, okEntryOf, assocGetD, jIsStrEq, jNum, pyMaxBy, pickMax, pickStep, arbKey,
      List.filterMap]

/-- C2 witness: the amended theorem applied to the concrete run with
relevant_sources ["RAG"] and relevance_scores scoring RAG 1. -/
theorem arbiter_primary_selection_amended_witness :
    (∃ l₁ l₂,
        ["RAG"] = l₁ ++ (synthesize_final_response ["RAG"] [("RAG", (1 : ℚ))] [] "a").source_used :: l₂
      ∧ (∀ t ∈ l₁, arbKey [("RAG", (1 : ℚ))] (availableSources []) t
          < arbKey [("RAG", (1 : ℚ))] (availableSources [])
              ((synthesize_final_response ["RAG"] [("RAG", (1 : ℚ))] [] "a").source_used))
      ∧ (∀ t ∈ l₂, arbKey [("RAG", (1 : ℚ))] (availableSources []) t
          ≤ arbKey [("RAG", (1 : ℚ))] (availableSources [])
              ((synthesize_final_response ["RAG"] [("RAG", (1 : ℚ))] [] "a").source_used)))
    ∧ (synthesize_final_response ["RAG", "Web"] [("RAG", 9/10), ("Web", 9/10)] [] "ans").source_used
        = "RAG" :=
  arbiter_primary_selection_amended ["RAG"] [("RAG", 1)] [] "a"
    (List.cons_ne_nil _ _) (List.cons_ne_nil _ _)

/-- C3: when relevant_sources or relevance_scores is empty, the arbiter
falls back to the availability scan: availableSources collects, in the
fixed order RAG, Memory, Web, ArXiv (keys rag_result, memory_result,
web_result, tool_result), exactly the dict entries whose status field
equals "OK", each with its confidence field; when that list is non-empty
the chosen source is its first entry of maximum confidence (strictly
smaller confidences before it, none larger after it).  In particular, with
empty relevant_sources and only memory_result OK at confidence 0.4, the
result is source_used "Memory" with confidence 0.4. -/
theorem arbiter_fallback_selection (relevant : List String) (scores : List (String × ℚ))
    (cs : List (String × Json)) (fr : String) (h : relevant = [] ∨ scores = []) :
    (∀ name conf, ((name, conf) ∈ availableSources cs ↔
        ∃ key kvs, (name, key) ∈ sourceOrder
          ∧ assocGetD cs key (Json.obj []) = Json.obj kvs
          ∧ assocGetD kvs "status" (Json.str "") = Json.str "OK"
          ∧ conf = jNum (assocGetD kvs "confidence" (Json.num 0))))
    ∧ (availableSources cs ≠ [] →
        ∃ l₁ l₂, (availableSources cs).map Prod.fst
            = l₁ ++ (synthesize_final_response relevant scores cs fr).source_used :: l₂
          ∧ (∀ t ∈ l₁, assocGetD (availableSources cs) t 0
              < assocGetD (availableSources cs)
                  ((synthesize_final_response relevant scores cs fr).source_used) 0)
          ∧ (∀ t ∈ l₂, assocGetD (availableSources cs) t 0
              ≤ assocGetD (availableSources cs)
                  ((synthesize_final_response relevant scores cs fr).source_used) 0))
    ∧ ((synthesize_final_response [] []
          [("memory_result", Json.obj [("status", Json.str "OK"), ("confidence", Json.num (2/5))])]
          "ans").source_used = "Memory"
        ∧ (synthesize_final_response [] []
          [("memory_result", Json.obj [("status", Json.str "OK"), ("confidence", Json.num (2/5))])]
          "ans").confidence = 2/5) := by
  refine ⟨fun name conf => availableSources_mem_iff cs name conf, ?_, ?_, ?_⟩
  · intro havail
    have hcond : ¬(relevant ≠ [] ∧ scores ≠ []) := by
      rcases h with h | h <;> simp [h]
    have hmapne : (availableSources cs).map Prod.fst ≠ [] := by
      intro hm
      exact havail (List.map_eq_nil_iff.mp hm)
    cases hmap : (availableSources cs).map Prod.fst with
    | nil => exact absurd hmap hmapne
    | cons x xs =>
        have hsu : (synthesize_final_response relevant scores cs fr).source_used
            = pickMax (fun s => assocGetD (availableSources cs) s 0) x xs := by
          show resolveSourceUsed relevant scores (availableSources cs) = _
          unfold resolveSourceUsed
          rw [if_neg hcond, if_pos hmapne, hmap]
          rfl
        rw [hsu]
        exact pickMax_split _ xs x
  · norm_num +decide [synthesize_final_response, resolveSourceUsed, resolveConfidence,
      availableSources, sourceOrder, okEntry, okEntryOf, assocGetD, assocHas, jIsStrEq, jNum,
      pyMaxBy, pickMax, pickStep, arbKey, List.filterMap]
  · norm_num +decide [synthesize_final_response, resolveSourceUsed, resolveConfidence,
      availableSources, sourceOrder, okEntry, okEntryOf, assocGetD, assocHas, jIsStrEq, jNum,
      pyMaxBy, pickMax, pickStep, arbKey, List.filterMap]

/-- C3 witness: the theorem applied with empty relevant_sources and empty
relevance_scores, projected to the concrete fallback instance. -/
theorem arbiter_fallback_selection_witness :
    (synthesize_final_response [] []
      [("memory_result", Json.obj [("status", Json.str "OK"), ("confidence", Json.num (2/5))])]
      "ans").source_used = "Memory" :=
  (arbiter_fallback_selection [] [] [] "a" (Or.inl rfl)).2.2.1

/-- C4: on every raw string that json.loads turns into an object, a record
already carrying a status field passes through _parse_agent_result with the
whole dict (hence that status) unchanged; a record without one gets exactly
the inferred status appended: ERROR when the error-token test fires,
INSUFFICIENT_CONTEXT when both the answer and citations fields are falsy
(empty or absent), and OK otherwise. -/
theorem parse_agent_result_status_inference (raw : String) (kvs : List (String × Json)) :
    (assocHas kvs "status" = true →
        parse_agent_result raw (some (Json.obj kvs)) = Except.ok (Json.obj kvs))
    ∧ (assocHas kvs "status" = false →
        parse_agent_result raw (some (Json.obj kvs))
          = Except.ok (Json.obj (kvs ++ [("status", Json.str (inferStatus kvs))])))
    ∧ (errorTokenPresent kvs = true → inferStatus kvs = "ERROR")
    ∧ (errorTokenPresent kvs = false → contentMissing kvs = true →
        inferStatus kvs = "INSUFFICIENT_CONTEXT")
    ∧ (errorTokenPresent kvs = false → contentMissing kvs = false → inferStatus kvs = "OK") := by
  refine ⟨?_, ?_, ?_, ?_, ?_⟩
  · intro hk
    simp only [parse_agent_result]
    rw [if_pos hk]
  · intro hk
    simp only [parse_agent_result]
    rw [if_neg (by simp [hk]), assocSet_of_absent kvs "status" _ hk]
  · intro he
    rw [inferStatus, if_pos he]
  · intro he hc
    rw [inferStatus, if_neg (by simp [he]), if_pos hc]
  · intro he hc
    rw [inferStatus, if_neg (by simp [he]), if_neg (by simp [hc])]

/-- C4 witness: the theorem applied to the object with a non-empty answer
and no status field; the inferred status is OK. -/
theorem parse_agent_result_status_inference_witness :
    parse_agent_result "x" (some (Json.obj [("answer", Json.str "hi")]))
      = Except.ok (Json.obj [("answer", Json.str "hi"), ("status", Json.str "OK")]) :=
  (parse_agent_result_status_inference "x" [("answer", Json.str "hi")]).2.1 rfl

/-- C5: on every raw string that fails to parse as JSON, _parse_agent_result
returns the ERROR record with confidence 0.0 exactly when the lowercased
string contains "error" or "failed", and the OK record with confidence 0.5
otherwise. -/
theorem parse_agent_result_nonjson (raw : String) :
    ((strContains (strLower raw) "error" || strContains (strLower raw) "failed") = true →
        parse_agent_result raw none
          = Except.ok (Json.obj
              [("status", Json.str "ERROR"), ("source_used", Json.str "UNKNOWN"),
               ("answer", Json.str raw), ("error", Json.str raw),
               ("citations", Json.arr []), ("confidence", Json.num 0)]))
    ∧ ((strContains (strLower raw) "error" || strContains (strLower raw) "failed") = false →
        parse_agent_result raw none
          = Except.ok (Json.obj
              [("status", Json.str "OK"), ("source_used", Json.str "UNKNOWN"),
               ("answer", Json.str raw), ("citations", Json.arr []),
               ("confidence", Json.num (1/2))])) := by
  constructor
  · intro hcond
    simp only [parse_agent_result]
    rw [if_pos hcond]
  · intro hcond
    simp only [parse_agent_result]
    rw [if_neg (by simp [hcond])]

/-- C5 witness: the theorem applied to the non-JSON text "Request FAILED",
classified as an ERROR record with confidence 0. -/
theorem parse_agent_result_nonjson_witness :
    parse_agent_result "Request FAILED" none
      = Except.ok (Json.obj
          [("status", Json.str "ERROR"), ("source_used", Json.str "UNKNOWN"),
           ("answer", Json.str "Request FAILED"), ("error", Json.str "Request FAILED"),
           ("citations", Json.arr []), ("confidence", Json.num 0)]) :=
  (parse_agent_result_nonjson "Request FAILED").1 rfl

/-- C6 counterexample: normalization of the non-JSON adapter output "hello"
assigns source_used = "UNKNOWN", which is not a member of the claimed enum
(MEMORY, RAG, WEB, TOOL, NONE). -/
theorem source_used_enum_cex :
    parse_agent_result "hello" none
      = Except.ok (Json.obj
          [("status", Json.str "OK"), ("source_used", Json.str "UNKNOWN"),
           ("answer", Json.str "hello"), ("citations", Json.arr []),
           ("confidence", Json.num (1/2))])
    ∧ ("UNKNOWN" ∉ (["MEMORY", "RAG", "WEB", "TOOL", "NONE"] : List String)) :=
  ⟨rfl, by decide⟩

/-- C6 (amended): the source_used values the pipeline itself assigns are
not drawn from the enum MEMORY, RAG, WEB, TOOL, NONE: normalization of
non-JSON adapter output always assigns the literal "UNKNOWN", and the
arbiter of synthesize_final_response assigns "NONE", a member of the
evaluator-supplied relevant_sources, or one of the display names "RAG",
"Memory", "Web", "ArXiv" (note the spellings differ from the enum). -/
theorem source_used_assigned_values (raw : String) (relevant : List String)
    (scores : List (String × ℚ)) (cs : List (String × Json)) (fr : String) :
    resultLookup (parse_agent_result raw none) "source_used" = some (Json.str "UNKNOWN")
    ∧ ((synthesize_final_response relevant scores cs fr).source_used = "NONE"
        ∨ (synthesize_final_response relevant scores cs fr).source_used ∈ relevant
        ∨ (synthesize_final_response relevant scores cs fr).source_used
            ∈ (["RAG", "Memory", "Web", "ArXiv"] : List String)) := by
  constructor
  · by_cases hcond : (strContains (strLower raw) "error" || strContains (strLower raw) "failed")
        = true
    · rw [(parse_agent_result_nonjson raw).1 hcond]
      rfl
    · rw [(parse_agent_result_nonjson raw).2 (by revert hcond; cases hb :
        (strContains (strLower raw) "error" || strContains (strLower raw) "failed") <;> simp)]
      rfl
  · have hsu : (synthesize_final_response relevant scores cs fr).source_used
        = resolveSourceUsed relevant scores (availableSources cs) := rfl
    rw [hsu]
    unfold resolveSourceUsed
    by_cases h1 : relevant ≠ [] ∧ scores ≠ []
    · rw [if_pos h1]
      cases hrel : relevant with
      | nil => exact absurd hrel h1.1
      | cons x xs =>
          right; left
          simp only [pyMaxBy]
          exact pyMaxBy_mem _ (x :: xs) _ rfl
    · rw [if_neg h1]
      by_cases h2 : (availableSources cs).map Prod.fst ≠ []
      · rw [if_pos h2]
        cases hmap : (availableSources cs).map Prod.fst with
        | nil => exact absurd hmap h2
        | cons x xs =>
            right; right
            simp only [pyMaxBy]
            have hmem : pickMax (fun s => assocGetD (availableSources cs) s 0) x xs ∈ x :: xs :=
              pyMaxBy_mem _ (x :: xs) _ rfl
            rw [← hmap] at hmem
            obtain ⟨p, hp, hpe⟩ := List.mem_map.mp hmem
            rw [← hpe]
            exact availableSources_name_mem cs p hp
      · rw [if_neg h2]
        left
        rfl

/-- C7: whenever the generate normalization returns normally, the returned
dict carries the caller-supplied source_used label, whatever the model
emitted for that field. -/
theorem generate_source_used_overwrite (modelOutput : Option Json) (sourceUsed : String)
    (j : Json) (h : StructuredResponseGen.generate modelOutput sourceUsed = Except.ok j) :
    ∃ kvs, j = Json.obj kvs ∧ assocFind kvs "source_used" = some (Json.str sourceUsed) := by
  cases modelOutput with
  | none => exact absurd h (by simp [StructuredResponseGen.generate])
  | some v =>
      cases v with
      | obj kvs =>
          have hj : Except.ok (Json.obj (assocSet kvs "source_used" (Json.str sourceUsed)))
              = Except.ok (ε := PyErr) j := h
          refine ⟨assocSet kvs "source_used" (Json.str sourceUsed),
            (Except.ok.inj hj).symm, assocFind_assocSet kvs "source_used" (Json.str sourceUsed)⟩
      | null => exact absurd h (by simp [StructuredResponseGen.generate])
      | bool b => exact absurd h (by simp [StructuredResponseGen.generate])
      | num q => exact absurd h (by simp [StructuredResponseGen.generate])
      | str s => exact absurd h (by simp [StructuredResponseGen.generate])
      | arr l => exact absurd h (by simp [StructuredResponseGen.generate])

/-- C7 witness: the theorem applied to a model output whose own
source_used guess "RAG" is overwritten by the caller label "WEB". -/
theorem generate_source_used_overwrite_witness :
    ∃ kvs, Json.obj [("source_used", Json.str "WEB"), ("status", Json.str "OK")] = Json.obj kvs
      ∧ assocFind kvs "source_used" = some (Json.str "WEB") :=
  generate_source_used_overwrite
    (some (Json.obj [("source_used", Json.str "RAG"), ("status", Json.str "OK")])) "WEB"
    (Json.obj [("source_used", Json.str "WEB"), ("status", Json.str "OK")]) rfl

/-- C8: normalization of a parsed JSON object is additive, never
destructive: every key-value pair of the parsed dict appears unchanged in
the returned record, and the returned record is either exactly the parsed
dict or the parsed dict with a single status entry appended. -/
theorem parse_agent_result_additive (raw : String) (kvs : List (String × Json)) :
    (∀ p ∈ kvs, p ∈ resultObj (parse_agent_result raw (some (Json.obj kvs))))
    ∧ (resultObj (parse_agent_result raw (some (Json.obj kvs))) = kvs
        ∨ resultObj (parse_agent_result raw (some (Json.obj kvs)))
            = kvs ++ [("status", Json.str (inferStatus kvs))]) := by
  by_cases hk : assocHas kvs "status" = true
  · rw [(parse_agent_result_status_inference raw kvs).1 hk]
    exact ⟨fun p hp => hp, Or.inl rfl⟩
  · have hk2 : assocHas kvs "status" = false := by
      revert hk
      cases assocHas kvs "status" <;> simp
    rw [(parse_agent_result_status_inference raw kvs).2.1 hk2]
    exact ⟨fun p hp => List.mem_append_left _ hp, Or.inr rfl⟩

/-- C8 witness: the theorem applied to a record with source-specific fields
(context, error_type): both survive normalization unchanged. -/
theorem parse_agent_result_additive_witness :
    (∀ p ∈ [(("context" : String), Json.str "c"), (("error_type" : String), Json.str "t")],
        p ∈ resultObj (parse_agent_result "x"
          (some (Json.obj [("context", Json.str "c"), ("error_type", Json.str "t")]))))
    ∧ (resultObj (parse_agent_result "x"
          (some (Json.obj [("context", Json.str "c"), ("error_type", Json.str "t")])))
        = [("context", Json.str "c"), ("error_type", Json.str "t")]
      ∨ resultObj (parse_agent_result "x"
          (some (Json.obj [("context", Json.str "c"), ("error_type", Json.str "t")])))
        = [("context", Json.str "c"), ("error_type", Json.str "t")]
            ++ [("status", Json.str (inferStatus
                  [("context", Json.str "c"), ("error_type", Json.str "t")]))]) :=
  parse_agent_result_additive "x" [("context", Json.str "c"), ("error_type", Json.str "t")]

/-- C9: turn condensation round-trip and length bound: text no longer than
max_length is returned unchanged, and every result is at most max_length
plus the length of the truncation marker (the longest marker, the
ellipsis variant of 43 characters, bounds all three branches). -/
theorem summarize_for_memory_roundtrip_bound (text : List Char) (n : ℕ) :
    (text.length ≤ n → summarize_for_memory text n = text)
    ∧ (summarize_for_memory text n).length ≤ n + truncEllipsisMarker.length := by
  have hm1 : truncSentenceMarker.length = 40 := by decide
  have hm2 : truncEllipsisMarker.length = 43 := by decide
  by_cases hlen : text.length ≤ n
  · constructor
    · intro hh
      simp only [summarize_for_memory]
      rw [if_pos hlen]
    · simp only [summarize_for_memory]
      rw [if_pos hlen, hm2]
      omega
  · constructor
    · intro hh
      exact absurd hh hlen
    · simp only [summarize_for_memory]
      rw [if_neg hlen]
      split_ifs with h1 h2
      · simp only [List.length_append, List.length_take, hm1]
        omega
      · simp only [List.length_append, List.length_take, hm2]
        omega
      · simp only [List.length_append, List.length_take, hm2]
        omega

/-- C9 witness: the theorem applied at the three-character text and bound
five, projected to the round-trip identity. -/
theorem summarize_for_memory_roundtrip_bound_witness :
    summarize_for_memory ("abc").data 5 = ("abc").data :=
  (summarize_for_memory_roundtrip_bound ("abc").data 5).1 (by decide)

/-- C10 (code bug): _parse_agent_result is not total at the aggregator
boundary: on the raw string "[]" (valid JSON, but an array) the Python
raises AttributeError (a list has no .get method), and on "3" (a number)
the membership test raises TypeError; no status-bearing dict is returned
and the exception is not caught. -/
theorem parse_agent_result_raises_on_nonobject :
    parse_agent_result "[]" (some (Json.arr [])) = Except.error PyErr.attributeError
    ∧ parse_agent_result "3" (some (Json.num 3)) = Except.error PyErr.typeError :=
  ⟨rfl, rfl⟩
